import Mathlib

/-!
Verification development for the hellohello-musicbot repository: a shallow
embedding, over `List Char` / `String`, of the bot's URL recognition,
normalization, per-URL equivalence cache, per-event dedup set, fetch wrappers,
reply construction and fallback construction, together with theorems checking
the repository's specification claims against the embedded code.

The primary listener embedded here is the one in `src/unnamed/part_000`
(identical, up to logging, to the one at `src/pages/api/slack.js` lines
334-410).  Older iterations that are quoted by the specification are embedded
separately where a claim refers to them: the retrying `fetchOdesli` of
`src/pages/api/slack.js` lines 71-96, the "v5-simple" reply construction, and
the "v4.1" fallback builder and final-text assembly of
`src/pages/api/odesli-probe.js`.

JavaScript string operations are modelled by structurally recursive functions
on `List Char` (the core `String` library functions of Lean are avoided only
because their well-founded recursion does not reduce in the kernel; the
definitions below mirror the JS semantics directly).
-/

set_option maxRecDepth 8000

namespace MusicBot

/-! ### JavaScript string primitives -/

/-- Characters matched by the JS `\s` class / removed by `String.prototype.trim`
(the subset relevant to this code base: ASCII whitespace and the no-break
space). -/
def jsWhitespace (c : Char) : Bool :=
  c == ' ' || c == '\t' || c == '\n' || c == '\r' || c == '\x0b' || c == '\x0c' || c == ' '

/-- `String.prototype.trim` on a char list. -/
def trimL (cs : List Char) : List Char :=
  ((cs.dropWhile jsWhitespace).reverse.dropWhile jsWhitespace).reverse

/-- `String.prototype.trim`. -/
def jsTrim (s : String) : String :=
  String.mk (trimL s.data)

/-- Does the list start with the given pattern (exact chars)? -/
def startsWithL : List Char → List Char → Bool
  | [], _ => true
  | _ :: _, [] => false
  | p :: ps, c :: cs => p == c && startsWithL ps cs

/-- Case-insensitive variant: the pattern is given in lowercase, the text char
is lowered before comparison (models a case-insensitive regex head). -/
def lowerAscii (c : Char) : Char :=
  if 65 ≤ c.toNat && c.toNat ≤ 90 then Char.ofNat (c.toNat + 32) else c

/-- Lowercase an entire char list (ASCII range, as used on hostnames). -/
def toLowerL (cs : List Char) : List Char :=
  cs.map lowerAscii

/-- `String.prototype.toLowerCase` restricted to ASCII (the hostnames this bot
inspects are ASCII). -/
def jsToLower (s : String) : String :=
  String.mk (toLowerL s.data)

/-- Case-insensitive pattern match at the head of a char list. -/
def ciMatch : List Char → List Char → Bool
  | [], _ => true
  | _ :: _, [] => false
  | p :: ps, c :: cs => p == lowerAscii c && ciMatch ps cs

/-- Does the string `s` end with the string `suffixStr`? -/
def endsWithS (s suffixStr : String) : Bool :=
  startsWithL suffixStr.data.reverse s.data.reverse

/-- One pass of `String.prototype.replace(/patt/g, repl)` for a literal,
nonempty pattern: scan left to right, on a match emit the replacement and
continue after the matched region of the source (the replacement is not
rescanned), otherwise advance one char.  Fuel-driven so that it reduces in the
kernel; fuel `≥` the length of the list is always sufficient. -/
def replaceLoop (patt repl : List Char) : Nat → List Char → List Char
  | 0, cs => cs
  | _ + 1, [] => []
  | fuel + 1, c :: cs =>
    if startsWithL patt (c :: cs) then
      repl ++ replaceLoop patt repl fuel ((c :: cs).drop patt.length)
    else
      c :: replaceLoop patt repl fuel cs

/-- `s.replace(/patt/g, repl)` for a literal pattern. -/
def jsReplaceAll (s patt repl : String) : String :=
  String.mk (replaceLoop patt.data repl.data s.data.length s.data)

/-- `str.split(sep)` for a single-char separator: JS yields `[""]` on the
empty string, and an empty trailing field when the string ends with the
separator. -/
def splitOnChar (sep : Char) : List Char → List (List Char)
  | [] => [[]]
  | c :: cs =>
    match splitOnChar sep cs with
    | [] => [[]]
    | l :: ls => if c = sep then [] :: l :: ls else (c :: l) :: ls

/-- JS truthiness of a possibly-absent string (`undefined`/`null` map to
`none`; of the strings only `""` is falsy). -/
def strTruthy : Option String → Bool
  | none => false
  | some s => !(s == "")

/-- Substring containment on char lists. -/
def hasSubL (patt : List Char) : List Char → Bool
  | [] => patt.isEmpty
  | c :: cs => startsWithL patt (c :: cs) || hasSubL patt cs

/-- Does `s` contain `patt` as a substring? -/
def strContains (s patt : String) : Bool :=
  hasSubL patt.data s.data

/-! ### URL utilities (from `src/unnamed/part_000`, lines 29-59) -/

/-- `cleanSlackUrl`: trim, strip one `<...>` wrapping, cut at the first `|`
(Slack link display text), trim again. -/
def cleanSlackUrl (raw : String) : String :=
  if raw = "" then ""
  else
    let u := trimL raw.data
    let u := if startsWithL ['<'] u && startsWithL ['>'] u.reverse then (u.drop 1).dropLast else u
    let u := u.takeWhile (fun c => !(c == '|'))
    String.mk (trimL u)

/-- Characters that end a URL match of the regex `/(https?:\/\/[^\s<>]+)/gi`. -/
def isUrlStopChar (c : Char) : Bool :=
  jsWhitespace c || c == '<' || c == '>'

/-- Try to match `https?:\/\/[^\s<>]+` (case-insensitive scheme) at the head of
the list; on success return the matched chars and the remainder. -/
def tryMatchUrl (cs : List Char) : Option (List Char × List Char) :=
  let tryLen : Nat → Option (List Char × List Char) := fun n =>
    let rest := cs.drop n
    let body := rest.takeWhile (fun c => !isUrlStopChar c)
    if body.isEmpty then none
    else some (cs.take n ++ body, rest.drop body.length)
  if ciMatch "https://".data cs then tryLen 8
  else if ciMatch "http://".data cs then tryLen 7
  else none

/-- Left-to-right global regex scan (fuel-driven; fuel `≥` list length
suffices): collect each match of the URL regex, resuming after a match. -/
def scanUrlsAux : Nat → List Char → List (List Char)
  | 0, _ => []
  | _ + 1, [] => []
  | fuel + 1, c :: cs =>
    match tryMatchUrl (c :: cs) with
    | some (m, rest) => m :: scanUrlsAux fuel rest
    | none => scanUrlsAux fuel cs

/-- `extractUrls`: all regex matches, each passed through `cleanSlackUrl`. -/
def extractUrls (text : String) : List String :=
  (scanUrlsAux text.data.length text.data).map (fun m => cleanSlackUrl (String.mk m))

/-- Modelled from the spec: the hostname extraction performed by the JS runtime
(`new URL(u).hostname`) which is not part of this repository.  The model covers
the http/https URLs this bot handles: after a case-insensitive `http://` or
`https://` scheme head, the authority extends to the first `/`, `?` or `#`;
userinfo (up to a final `@`) and a port (after `:`) are stripped; an empty host
or a non-http(s) string is a parse failure (`none`), as the `URL` constructor
throws there. -/
def hostnameOf (u : String) : Option String :=
  let cs := u.data
  let rest? : Option (List Char) :=
    if ciMatch "https://".data cs then some (cs.drop 8)
    else if ciMatch "http://".data cs then some (cs.drop 7)
    else none
  match rest? with
  | none => none
  | some rest =>
    let authority := rest.takeWhile (fun c => !(c == '/' || c == '?' || c == '#'))
    let afterUser :=
      if authority.contains '@' then (authority.reverse.takeWhile (fun c => !(c == '@'))).reverse
      else authority
    let host := afterUser.takeWhile (fun c => !(c == ':'))
    if host.isEmpty then none else some (String.mk host)

/-- `isSupportedMusicUrl` (part_000 lines 43-51): hostname of the parsed URL,
lowercased, against the fixed allow-list; `false` when parsing throws. -/
def isSupportedMusicUrl (u : String) : Bool :=
  match hostnameOf u with
  | none => false
  | some h0 =>
    let h := jsToLower h0
    endsWithS h "open.spotify.com" || h == "spotify.link"
      || endsWithS h "music.apple.com" || endsWithS h "itunes.apple.com"
      || endsWithS h "geo.music.apple.com"
      || endsWithS h "music.youtube.com" || endsWithS h "youtube.com" || h == "youtu.be"

/-- The text-cleaning half of `normalizeCandidate` (part_000 lines 52-56):
decode `&amp;` (one global pass), replace no-break spaces, trim. -/
def cleanCandidate (s : String) : String :=
  jsTrim (jsReplaceAll (jsReplaceAll s "&amp;" "&") " " " ")

/-- `normalizeCandidate`, parametrized by the URL-parser round-trip `rt`
(`new URL(s).toString()`, `none` on a parse failure): clean the text, then
round-trip it through the parser, passing the cleaned string through unchanged
when parsing fails. -/
def normalizeCandidate (rt : String → Option String) (s : String) : String :=
  let c := cleanCandidate s
  match rt c with
  | some t => t
  | none => c

/-- Modelled from the spec: a concrete instance of the URL-parser round-trip
(`new URL(s).toString()`), which lives in the JS runtime, not in this
repository.  A string with no `:` has no scheme and fails to parse (exact);
an http(s) URL is returned unchanged (exact for already-canonical URLs, which
are the only ones the theorems below feed through the success branch);
other schemes are out of the model's scope. -/
def urlRoundTripModel (s : String) : Option String :=
  if s.data.contains ':' then
    if startsWithL "http://".data s.data || startsWithL "https://".data s.data then some s
    else none
  else none

/-! ### Inbound event model (the fields the part_000 listener consumes) -/

/-- An attachment record, as inspected by `pickUrlFromEvent`.  `none` models an
absent (`undefined`) field. -/
structure Attachment where
  from_url : Option String
  title_link : Option String
  original_url : Option String
  deriving DecidableEq

/-- The nested `event.message` object present on `message_changed` events. -/
structure InnerMessage where
  text : Option String
  attachments : Option (List Attachment)
  deriving DecidableEq

/-- A message event, restricted to the fields the listener reads. -/
structure MsgEvent where
  text : Option String
  message : Option InnerMessage
  attachments : Option (List Attachment)
  subtype : Option String
  bot_id : Option String
  channel : String
  thread_ts : Option String
  ts : String
  deriving DecidableEq

/-- `typeof event.text === 'string' ? event.text : (event.message &&
typeof event.message.text === 'string' ? event.message.text : '')`. -/
def eventText (ev : MsgEvent) : String :=
  match ev.text with
  | some s => s
  | none =>
    match ev.message with
    | some m => (match m.text with | some t => t | none => "")
    | none => ""

/-- `event?.message?.attachments || event?.attachments || []` (a present array
is truthy even when empty). -/
def eventAttachments (ev : MsgEvent) : List Attachment :=
  match ev.message with
  | some m =>
    (match m.attachments with
     | some l => l
     | none => (match ev.attachments with | some l => l | none => []))
  | none => (match ev.attachments with | some l => l | none => [])

/-- `a?.field && isSupportedMusicUrl(a.field)`: the field must be present,
truthy and a supported music URL. -/
def checkSupported (o : Option String) : Option String :=
  match o with
  | some u => if !(u == "") && isSupportedMusicUrl u then some u else none
  | none => none

/-- One attachment record: `from_url`, then `title_link`, then `original_url`. -/
def attachmentCandidate (a : Attachment) : Option String :=
  match checkSupported a.from_url with
  | some u => some u
  | none =>
    match checkSupported a.title_link with
    | some u => some u
    | none => checkSupported a.original_url

/-- The attachment loop of `pickUrlFromEvent`. -/
def pickFromAttachments : List Attachment → Option String
  | [] => none
  | a :: rest =>
    match attachmentCandidate a with
    | some u => some u
    | none => pickFromAttachments rest

/-- `pickFirstSupportedUrlFromText` (part_000 lines 57-59). -/
def pickFirstSupportedUrlFromText (text : String) : Option String :=
  (extractUrls text).find? isSupportedMusicUrl

/-- `pickUrlFromEvent` (part_000 lines 62-79): first supported URL of the
text, else the first supported link field of the attachments. -/
def pickUrlFromEvent (ev : MsgEvent) : Option String :=
  match pickFirstSupportedUrlFromText (eventText ev) with
  | some u => some u
  | none => pickFromAttachments (eventAttachments ev)

/-- `isIgnorableEvent` (part_000 lines 82-87): bot messages and deletions are
ignored.  (The listener is only ever invoked with an event object, so the
JS `!ev` guard is vacuous here.) -/
def isIgnorableEvent (ev : MsgEvent) : Bool :=
  (ev.subtype == some "bot_message") || strTruthy ev.bot_id
    || (ev.subtype == some "message_deleted")

/-! ### Equivalence cache (part_000 lines 111-120) -/

/-- `CACHE_TTL_MS = 10 * 60 * 1000`. -/
def CACHE_TTL_MS : Nat := 10 * 60 * 1000

/-- A cache slot: `{ data, at }` (the JS field `at` is `createdAt` here, as
`at` is a Lean keyword). -/
structure CacheEntry (α : Type) where
  data : α
  createdAt : Nat
  deriving DecidableEq

/-- The in-memory `Map`, as an association list with distinct keys. -/
abbrev Cache (α : Type) := List (String × CacheEntry α)

/-- `cache.get(url)`. -/
def cacheFindEntry {α : Type} (c : Cache α) (k : String) : Option (CacheEntry α) :=
  (c.find? (fun p => p.1 == k)).map Prod.snd

/-- `cache.delete(url)`. -/
def cacheDelete {α : Type} (c : Cache α) (k : String) : Cache α :=
  c.filter (fun p => !(p.1 == k))

/-- `cache.set(url, e)`: overwrite in place when the key exists, else append. -/
def mapSet {α : Type} (c : Cache α) (k : String) (e : CacheEntry α) : Cache α :=
  if c.any (fun p => p.1 == k) then c.map (fun p => if p.1 == k then (k, e) else p)
  else c ++ [(k, e)]

/-- `getCached` (part_000 lines 114-119): absent gives `null`; an entry with
`now - at > TTL` is deleted and gives `null`; otherwise the data is returned.
The (possibly updated) cache is returned alongside. -/
def getCached {α : Type} (c : Cache α) (now : Nat) (url : String) : Option α × Cache α :=
  match cacheFindEntry c url with
  | none => (none, c)
  | some e =>
    if now - e.createdAt > CACHE_TTL_MS then (none, cacheDelete c url)
    else (some e.data, c)

/-- `setCached` (part_000 line 120): unconditional `cache.set` with a fresh
timestamp. -/
def setCached {α : Type} (c : Cache α) (now : Nat) (url : String) (d : α) : Cache α :=
  mapSet c url { data := d, createdAt := now }

/-- Does the underlying map have this key? -/
def cacheHasKey {α : Type} (c : Cache α) (k : String) : Bool :=
  c.any (fun p => p.1 == k)

/-! ### Odesli data and reply construction (part_000 lines 196-207) -/

/-- `data.linksByPlatform.<service>?.url` for the three consumed services. -/
structure LinksByPlatform where
  spotify : Option String
  appleMusic : Option String
  youtubeMusic : Option String
  deriving DecidableEq

/-- The parsed Odesli response (only the consumed part). -/
structure OdesliData where
  linksByPlatform : Option LinksByPlatform
  deriving DecidableEq

/-- `data?.linksByPlatform?.<f>?.url`. -/
def lbpField (d : OdesliData) (f : LinksByPlatform → Option String) : Option String :=
  match d.linksByPlatform with
  | some l => f l
  | none => none

/-- The fixed first line of the equivalence reply. -/
def replyHeader : String := "🎶 Links equivalentes:\n"

/-- The no-equivalences reply (part_000 line 207). -/
def noEquivText : String := "No pude encontrar equivalencias 😕"

/-- The visible fallback posted when `fetchOdesli` throws (part_000 line 170). -/
def timeoutText : String :=
  "😕 No pude obtener equivalencias ahora (timeout). Probá de nuevo en unos segundos."

/-- Reply construction of the part_000 listener (lines 199-207). -/
def buildReply (d : OdesliData) : String :=
  let sp := lbpField d LinksByPlatform.spotify
  let ap := lbpField d LinksByPlatform.appleMusic
  let yt := lbpField d LinksByPlatform.youtubeMusic
  let r := replyHeader
  let r := if strTruthy sp then r ++ "- Spotify: " ++ sp.getD "" ++ "\n" else r
  let r := if strTruthy ap then r ++ "- Apple Music: " ++ ap.getD "" ++ "\n" else r
  let r := if strTruthy yt then r ++ "- YouTube Music: " ++ yt.getD "" ++ "\n" else r
  if r = replyHeader then noEquivText else r

/-! ### Channel allow-list (part_000 lines 7-10 and 130-132) -/

/-- `(env.ALLOWED_CHANNELS || '').split(',').map(s => s.trim()).filter(Boolean)`. -/
def parseAllowedChannels (env : String) : List String :=
  ((splitOnChar ',' env.data).map (fun cs => String.mk (trimL cs))).filter (fun s => !(s == ""))

/-- `!ALLOWED_CHANNELS.length || ALLOWED_CHANNELS.includes(channel)`. -/
def channelAllowed (cfg : List String) (ch : String) : Bool :=
  cfg.isEmpty || cfg.contains ch

/-! ### Dedup set and the part_000 listener -/

/-- `seenEvents.add(eventId); if (seenEvents.size > 2000) seenEvents.clear()`,
on the branch where the id was not yet in the set. -/
def markSeenAdd (seen : List String) (eid : String) : List String :=
  let s1 := seen ++ [eid]
  if s1.length > 2000 then [] else s1

/-- The process-wide mutable state of the listener: the `seenEvents` set (as a
duplicate-free list) and the per-URL cache. -/
structure BotState where
  seen : List String
  cache : Cache OdesliData
  deriving DecidableEq

/-- Steps 3+ of the listener, after the dedup gate: normalize, cache lookup,
fetch on a miss (the fetch outcome is the `fetched` oracle: `none` models a
thrown/timed-out `fetchOdesli`), cache write on fetch success, and the posted
message text.  The returned list is the sequence of messages posted. -/
def processCandidate (rt : String → Option String) (st : BotState) (candidateRaw : String)
    (fetched : Option OdesliData) (now : Nat) : BotState × List String :=
  let candidate := normalizeCandidate rt candidateRaw
  match getCached st.cache now candidate with
  | (some d, c1) => ({ st with cache := c1 }, [buildReply d])
  | (none, c1) =>
    match fetched with
    | some d => ({ st with cache := setCached c1 now candidate d }, [buildReply d])
    | none => ({ st with cache := c1 }, [timeoutText])

/-- The part_000 `app.event('message')` listener (lines 126-243): ignorable
filter, channel allow-list, URL extraction, then — only once a candidate URL
exists — the dedup check-and-mark on `body.event_id` (skipped entirely when
the id is absent or falsy, mirroring `if (eventId)`), then `processCandidate`.  Posting is assumed to succeed
(the permission-denied ephemeral side channel is outside the model). -/
def handleMessage (rt : String → Option String) (chans : List String) (st : BotState)
    (ev : MsgEvent) (eventId : Option String) (fetched : Option OdesliData) (now : Nat) :
    BotState × List String :=
  if isIgnorableEvent ev then (st, [])
  else if !channelAllowed chans ev.channel then (st, [])
  else
    match pickUrlFromEvent ev with
    | none => (st, [])
    | some candidateRaw =>
      match eventId with
      | some eid =>
        if eid == "" then processCandidate rt st candidateRaw fetched now
        else if st.seen.contains eid then (st, [])
        else processCandidate rt { st with seen := markSeenAdd st.seen eid } candidateRaw fetched now
      | none => processCandidate rt st candidateRaw fetched now

/-! ### The fetch wrappers (part_000 lines 99-109; slack.js lines 71-96) -/

/-- Outcome of one HTTP request to the equivalence service: a parsed payload,
or any failure (non-2xx status, abort/timeout, parse error). -/
inductive FetchOutcome where
  | ok (d : OdesliData)
  | fail
  deriving DecidableEq

/-- `fetchOdesli` of part_000 (lines 99-109): a single request through
`fetchWithTimeout`; a failure propagates.  `remote i` is the outcome of the
`i`-th request issued; the second component counts the requests issued. -/
def fetchOdesli_v1 (remote : Nat → FetchOutcome) : Option OdesliData × Nat :=
  match remote 0 with
  | .ok d => (some d, 1)
  | .fail => (none, 1)

/-- `fetchOdesli` of `src/pages/api/slack.js` lines 71-96 (same shape in
`src/unnamed/part_002` lines 78-102): try 1, and on any failure a second
request (try 2) before giving up. -/
def fetchOdesli_retry (remote : Nat → FetchOutcome) : Option OdesliData × Nat :=
  match remote 0 with
  | .ok d => (some d, 1)
  | .fail =>
    match remote 1 with
    | .ok d => (some d, 2)
    | .fail => (none, 2)

/-! ### The v5-simple reply construction (odesli-probe.js lines 142-157) -/

/-- The v5-simple listener's reply: `none` when nothing is posted (no usable
entries), otherwise the single-line `🎶`-joined text. -/
def buildReplyV5 (d : OdesliData) : Option String :=
  let sp := lbpField d LinksByPlatform.spotify
  let ap := lbpField d LinksByPlatform.appleMusic
  let yt := lbpField d LinksByPlatform.youtubeMusic
  if !(strTruthy sp || strTruthy ap || strTruthy yt) then none
  else
    let parts :=
      (if strTruthy sp then ["Spotify: " ++ sp.getD ""] else [])
        ++ (if strTruthy ap then ["Apple Music: " ++ ap.getD ""] else [])
        ++ (if strTruthy yt then ["YouTube Music: " ++ yt.getD ""] else [])
    if parts.isEmpty then none
    else some ("🎶 " ++ String.intercalate " • " parts)

/-- The single-line text the v5-simple listener posts when all three services
are usable: the three entries joined by `" • "` after the `"🎶 "` head. -/
def v5JoinedReply (u1 u2 u3 : String) : String :=
  "🎶 " ++ String.intercalate " • "
    ["Spotify: " ++ u1, "Apple Music: " ++ u2, "YouTube Music: " ++ u3]

/-! ### The v4.1 fallback builder and final text (odesli-probe.js lines 245-299) -/

/-- Hex digit (uppercase), as produced by `encodeURIComponent`. -/
def hexDigit (n : Nat) : Char :=
  if n < 10 then Char.ofNat (48 + n) else Char.ofNat (55 + n)

/-- Percent-encoding of one byte. -/
def pctByte (b : Nat) : List Char :=
  ['%', hexDigit (b / 16), hexDigit (b % 16)]

/-- UTF-8 bytes of a code point. -/
def utf8Bytes (n : Nat) : List Nat :=
  if n < 128 then [n]
  else if n < 2048 then [192 + n / 64, 128 + n % 64]
  else if n < 65536 then [224 + n / 4096, 128 + (n / 64) % 64, 128 + n % 64]
  else [240 + n / 262144, 128 + (n / 4096) % 64, 128 + (n / 64) % 64, 128 + n % 64]

/-- The characters `encodeURIComponent` leaves unescaped. -/
def uriUnreserved (c : Char) : Bool :=
  c.isAlphanum || c == '-' || c == '_' || c == '.' || c == '!' || c == '~'
    || c == '*' || c == '\'' || c == '(' || c == ')'

/-- `encodeURIComponent`. -/
def encodeURIComponent (s : String) : String :=
  String.mk (s.data.foldr (fun c acc =>
    (if uriUnreserved c then [c] else (utf8Bytes c.toNat).foldr (fun b a => pctByte b ++ a) []) ++ acc) [])

/-- The fixed header of the v4.1 fallback text. -/
def fallbackHeaderText : String :=
  ":notes: No pude confirmar equivalencias exactas ahora, probá con estas búsquedas:\n"

/-- The Apple Music search line up to the query (a literal segment of the v4.1
`buildFallback` template). -/
def appleSearchMark : String :=
  "- Apple Music (búsqueda): https://music.apple.com/us/search?term="

/-- The YouTube Music search line up to the query. -/
def ytSearchMark : String :=
  "- YouTube Music (búsqueda): https://music.youtube.com/search?q="

/-- `buildFallback(url, title = '')` (odesli-probe.js lines 245-251): search
links for Apple Music and YouTube Music keyed on `title || url`. -/
def buildFallback (url : String) (title : String) : String :=
  let q := encodeURIComponent (if title == "" then url else title)
  fallbackHeaderText ++ appleSearchMark ++ q ++ "\n" ++ ytSearchMark ++ q ++ "\n"

/-- The v4.1 equivalence-reply header. -/
def v41Header : String := ":notes: Links equivalentes:\n"

/-- The v4.1 listener's final text (odesli-probe.js lines 280-299): on a fetch
failure/timeout (`none`) the fallback; on success the per-service lines, with
the fallback substituted when no line was added. -/
def v41FinalText (res : Option OdesliData) (url : String) : String :=
  match res with
  | none => buildFallback url ""
  | some d =>
    let sp := lbpField d LinksByPlatform.spotify
    let ap := lbpField d LinksByPlatform.appleMusic
    let yt := lbpField d LinksByPlatform.youtubeMusic
    let t := v41Header
    let t := if strTruthy sp then t ++ "- Spotify: " ++ sp.getD "" ++ "\n" else t
    let t := if strTruthy ap then t ++ "- Apple Music: " ++ ap.getD "" ++ "\n" else t
    let t := if strTruthy yt then t ++ "- YouTube Music: " ++ yt.getD "" ++ "\n" else t
    if t = v41Header then buildFallback url "" else t

/-- The service a hostname belongs to, following the grouped hostname clauses
of `isSupportedMusicUrl`. -/
inductive Service where
  | spotify
  | appleMusic
  | youtubeMusic
  deriving DecidableEq

/-- Classify a (lowercased) hostname by the allow-list clauses. -/
def serviceOfHostname (h : String) : Option Service :=
  if endsWithS h "open.spotify.com" || h == "spotify.link" then some .spotify
  else if endsWithS h "music.apple.com" || endsWithS h "itunes.apple.com"
      || endsWithS h "geo.music.apple.com" then some .appleMusic
  else if endsWithS h "music.youtube.com" || endsWithS h "youtube.com"
      || h == "youtu.be" then some .youtubeMusic
  else none

/-- The service a candidate URL belongs to. -/
def serviceOfUrl (u : String) : Option Service :=
  match hostnameOf u with
  | none => none
  | some h => serviceOfHostname (jsToLower h)

/-! ### Concrete fixtures used by scenario theorems and counterexamples -/

/-- The Spotify track URL of the spec's scenarios. -/
def spotifyTrackUrl : String := "https://open.spotify.com/track/4JjqJhEW00zcGiMIsunf0X"

/-- `n` distinct event ids / cache keys (`"a"`, `"aa"`, `"aaa"`, ...), used to
build states at the 2000-entry capacity threshold without evaluating them. -/
def padIds (n : Nat) : List String :=
  (List.range n).map (fun k => String.mk (List.replicate (k + 1) 'a'))

/-- A cache already holding 2000 distinct entries. -/
def bigCache2000 : Cache OdesliData :=
  (padIds 2000).map (fun s => (s, { data := { linksByPlatform := none }, createdAt := 0 }))

/-- A plain inbound message event carrying a supported Spotify URL. -/
def evSpot : MsgEvent :=
  { text := some "yo https://open.spotify.com/track/abc", message := none, attachments := none,
    subtype := none, bot_id := none, channel := "C", thread_ts := none, ts := "1" }

/-- An inbound message event with no URL in it. -/
def evPlain : MsgEvent :=
  { text := some "hello there", message := none, attachments := none,
    subtype := none, bot_id := none, channel := "C", thread_ts := none, ts := "2" }

/-- An Odesli result carrying all three service links. -/
def dFull : OdesliData :=
  { linksByPlatform := some { spotify := some "S", appleMusic := some "A", youtubeMusic := some "Y" } }

/-- An Odesli result whose mapping yields zero usable entries. -/
def dEmpty : OdesliData :=
  { linksByPlatform := some { spotify := none, appleMusic := none, youtubeMusic := none } }

/-- The v5-simple emptiness test `!sp && !ap && !yt` on a parsed mapping. -/
def linksEmpty (d : OdesliData) : Bool :=
  !(strTruthy (lbpField d LinksByPlatform.spotify)
    || strTruthy (lbpField d LinksByPlatform.appleMusic)
    || strTruthy (lbpField d LinksByPlatform.youtubeMusic))

/-! ### Generic helper lemmas -/

theorem strData_append (s t : String) : (s ++ t).data = s.data ++ t.data := by
  cases s; cases t; rfl

theorem strAppend_assoc (a b c : String) : a ++ b ++ c = a ++ (b ++ c) := by
  apply String.ext
  simp [strData_append]

theorem head?_append_left {l m : List Char} {a : Char} (h : l.head? = some a) :
    (l ++ m).head? = some a := by
  cases l with
  | nil => simp at h
  | cons c cs => simpa using h

theorem startsWithL_self_append (p rest : List Char) : startsWithL p (p ++ rest) = true := by
  induction p with
  | nil => rfl
  | cons c cs ih => simp [startsWithL, ih]

theorem hasSubL_of_append (p a b : List Char) : hasSubL p (a ++ (p ++ b)) = true := by
  induction a with
  | nil =>
    cases hp : p with
    | nil => cases b <;> simp [hasSubL, startsWithL]
    | cons c cs =>
      have h2 := startsWithL_self_append p b
      rw [hp] at h2
      simp only [List.cons_append] at h2
      simp [hasSubL, hp, h2]
  | cons c a ih =>
    simp [hasSubL, ih]

theorem strContains_of_split (s m : String) (a b : List Char)
    (h : s.data = a ++ (m.data ++ b)) : strContains s m = true := by
  simp [strContains, h, hasSubL_of_append]

theorem padIds_length (n : Nat) : (padIds n).length = n := by
  simp [padIds]

theorem b_not_mem_padIds (n : Nat) : "b" ∉ padIds n := by
  intro h
  simp only [padIds, List.mem_map, List.mem_range] at h
  obtain ⟨k, _, hk⟩ := h
  have hd := congrArg String.data hk
  have hb : ("b" : String).data = ['b'] := rfl
  rw [hb] at hd
  simp [List.replicate_succ] at hd

theorem contains_padIds_b (n : Nat) : (padIds n).contains "b" = false := by
  rw [← Bool.not_eq_true]
  intro h
  exact b_not_mem_padIds n (List.elem_iff.mp h)

theorem filter_nonblank_eq_nil {l : List String} (h : ∀ s ∈ l, s = "") :
    l.filter (fun s => !(s == "")) = [] := by
  induction l with
  | nil => rfl
  | cons a l ih =>
    have ha := h a (List.mem_cons_self a l)
    simp only [List.filter_cons, ha]
    simpa using ih (fun s hs => h s (List.mem_cons_of_mem a hs))

/-! ### Cache lemmas -/

theorem cacheFindEntry_delete {α : Type} (c : Cache α) (k : String) :
    cacheFindEntry (cacheDelete c k) k = none := by
  induction c with
  | nil => rfl
  | cons p rest ih =>
    simp only [cacheDelete, List.filter_cons] at *
    cases hp : (p.1 == k) with
    | true => simp only [hp, Bool.not_true, if_neg]; exact ih
    | false =>
      simp only [hp, Bool.not_false, if_pos]
      simp only [cacheFindEntry, List.find?_cons, hp] at ih ⊢
      exact ih

theorem find?_map_set_of_any {α : Type} (k : String) (e : CacheEntry α) :
    ∀ c : Cache α, c.any (fun p => p.1 == k) = true →
      (c.map (fun p => if p.1 == k then (k, e) else p)).find? (fun p => p.1 == k) = some (k, e) := by
  intro c
  induction c with
  | nil => intro h; simp at h
  | cons p rest ih =>
    intro h
    rw [List.map_cons]
    cases hp : (p.1 == k) with
    | true =>
      rw [if_pos rfl, List.find?_cons_of_pos _ (by simp)]
    | false =>
      rw [if_neg (by simp), List.find?_cons_of_neg _ (by simp [hp])]
      exact ih (by simpa [List.any_cons, hp] using h)

theorem find?_append_new {α : Type} (k : String) (e : CacheEntry α) :
    ∀ c : Cache α, c.any (fun p => p.1 == k) = false →
      (c ++ [(k, e)]).find? (fun p => p.1 == k) = some (k, e) := by
  intro c
  induction c with
  | nil => intro _; simp [List.find?_cons_of_pos]
  | cons p rest ih =>
    intro h
    have hp : (p.1 == k) = false := by
      by_contra hc
      simp only [Bool.not_eq_false] at hc
      simp [List.any_cons, hc] at h
    have hrest : rest.any (fun p => p.1 == k) = false := by
      simpa [List.any_cons, hp] using h
    rw [List.cons_append, List.find?_cons_of_neg _ (by simp [hp])]
    exact ih hrest

theorem cacheFindEntry_set_self {α : Type} (c : Cache α) (now : Nat) (k : String) (d : α) :
    cacheFindEntry (setCached c now k d) k = some { data := d, createdAt := now } := by
  unfold setCached mapSet cacheFindEntry
  split
  next h => rw [find?_map_set_of_any k _ c h]; rfl
  next h => rw [find?_append_new k _ c (by rwa [Bool.not_eq_true] at h)]; rfl

/-! ### Handler shape lemmas -/

theorem processCandidate_parts (rt : String → Option String) (st : BotState) (c : String)
    (f : Option OdesliData) (now : Nat) :
    (processCandidate rt st c f now).1.seen = st.seen
      ∧ (processCandidate rt st c f now).2.length = 1 := by
  unfold processCandidate
  rcases hg : getCached st.cache now (normalizeCandidate rt c) with ⟨o, c1⟩
  cases o <;> cases f <;> simp [hg]

theorem handleMessage_noUrl (rt : String → Option String) (chans : List String) (st : BotState)
    (ev : MsgEvent) (eid : Option String) (f : Option OdesliData) (now : Nat)
    (h : pickUrlFromEvent ev = none) :
    handleMessage rt chans st ev eid f now = (st, []) := by
  by_cases hig : isIgnorableEvent ev
  · simp [handleMessage, hig]
  · by_cases hal : channelAllowed chans ev.channel
    · simp [handleMessage, hig, hal, h]
    · simp [handleMessage, hig, hal]

theorem handleMessage_run (rt : String → Option String) (chans : List String) (st : BotState)
    (ev : MsgEvent) (eid : Option String) (f : Option OdesliData) (now : Nat) {u : String}
    (hig : isIgnorableEvent ev = false) (hal : channelAllowed chans ev.channel = true)
    (hurl : pickUrlFromEvent ev = some u) :
    handleMessage rt chans st ev eid f now =
      (match eid with
       | some e =>
         if e == "" then processCandidate rt st u f now
         else if st.seen.contains e then (st, [])
         else processCandidate rt { st with seen := markSeenAdd st.seen e } u f now
       | none => processCandidate rt st u f now) := by
  simp [handleMessage, hig, hal, hurl]

theorem handleMessage_dedup (rt : String → Option String) (chans : List String) (st : BotState)
    (ev : MsgEvent) (eid : String) (f : Option OdesliData) (now : Nat) {u : String}
    (hig : isIgnorableEvent ev = false) (hal : channelAllowed chans ev.channel = true)
    (hurl : pickUrlFromEvent ev = some u) (heid : (eid == "") = false) :
    handleMessage rt chans st ev (some eid) f now =
      (if st.seen.contains eid then (st, [])
       else processCandidate rt { st with seen := markSeenAdd st.seen eid } u f now) := by
  rw [handleMessage_run rt chans st ev (some eid) f now hig hal hurl]
  simp only [heid, Bool.false_eq_true, if_false]

theorem handleMessage_posts_nonempty (rt : String → Option String) (chans : List String)
    (st : BotState) (ev : MsgEvent) (eventId : Option String) (f : Option OdesliData)
    (now : Nat) {u : String}
    (hig : isIgnorableEvent ev = false) (hal : channelAllowed chans ev.channel = true)
    (hurl : pickUrlFromEvent ev = some u) (heid : strTruthy eventId = false) :
    (handleMessage rt chans st ev eventId f now).1.seen = st.seen
      ∧ (handleMessage rt chans st ev eventId f now).2.length = 1 := by
  rw [handleMessage_run rt chans st ev eventId f now hig hal hurl]
  cases eventId with
  | none => exact processCandidate_parts rt st u f now
  | some eid =>
    have he : (eid == "") = true := by simpa [strTruthy] using heid
    simp only [he, if_true]
    exact processCandidate_parts rt st u f now

/-! ### Claim C3: cache get/put semantics -/

/-- C3: `getCached` returns none when the key is absent, and when
`now - createdAt > CACHE_TTL_MS` (so an entry of age exactly the TTL is still
returned), evicting the stale entry from the returned cache on a stale read;
`setCached` overwrites any existing entry unconditionally with a fresh
timestamp. -/
theorem claim_c3_cache_get_put :
    (∀ (α : Type) (c : Cache α) (now : Nat) (url : String),
        cacheFindEntry c url = none → getCached c now url = (none, c))
      ∧ (∀ (α : Type) (c : Cache α) (now : Nat) (url : String) (e : CacheEntry α),
          cacheFindEntry c url = some e → now - e.createdAt > CACHE_TTL_MS →
            getCached c now url = (none, cacheDelete c url)
              ∧ cacheFindEntry (cacheDelete c url) url = none)
      ∧ (∀ (α : Type) (c : Cache α) (now : Nat) (url : String) (e : CacheEntry α),
          cacheFindEntry c url = some e → now - e.createdAt ≤ CACHE_TTL_MS →
            getCached c now url = (some e.data, c))
      ∧ (∀ (α : Type) (c : Cache α) (now : Nat) (url : String) (d : α),
          cacheFindEntry (setCached c now url d) url
            = some { data := d, createdAt := now }) := by
  refine ⟨?_, ?_, ?_, ?_⟩
  · intro α c now url h
    simp [getCached, h]
  · intro α c now url e h hstale
    refine ⟨?_, cacheFindEntry_delete c url⟩
    simp [getCached, h, hstale]
  · intro α c now url e h hfresh
    have : ¬ now - e.createdAt > CACHE_TTL_MS := by omega
    simp [getCached, h, this]
  · intro α c now url d
    exact cacheFindEntry_set_self c now url d

/-- Witness for C3 at concrete inputs: a fresh entry of age exactly the TTL is
returned, a one-ms-older entry is evicted, an absent key misses, and a `put`
overwrites an existing entry. -/
theorem claim_c3_cache_get_put_witness :
    getCached ([("u", { data := 3, createdAt := 0 })] : Cache Nat) 600000 "u"
        = (some 3, [("u", { data := 3, createdAt := 0 })])
      ∧ getCached ([("u", { data := 3, createdAt := 0 })] : Cache Nat) 600001 "u"
          = (none, cacheDelete ([("u", { data := 3, createdAt := 0 })] : Cache Nat) "u")
      ∧ getCached ([] : Cache Nat) 0 "u" = (none, [])
      ∧ cacheFindEntry (setCached ([("u", { data := 3, createdAt := 0 })] : Cache Nat) 7 "u" 9) "u"
          = some { data := 9, createdAt := 7 } := by
  refine ⟨?_, ?_, ?_, ?_⟩
  · exact claim_c3_cache_get_put.2.2.1 Nat _ 600000 "u" { data := 3, createdAt := 0 } (by decide)
      (by decide)
  · exact (claim_c3_cache_get_put.2.1 Nat _ 600001 "u" { data := 3, createdAt := 0 } (by decide)
      (by decide)).1
  · exact claim_c3_cache_get_put.1 Nat [] 0 "u" (by decide)
  · exact claim_c3_cache_get_put.2.2.2 Nat _ 7 "u" 9

/-! ### Claim C5: attempts per fetch call -/

/-- C5 counterexample: the `fetchOdesli` of `src/pages/api/slack.js` (lines
71-96) issues two requests when the first attempt fails — not exactly one
request per call as claimed. -/
theorem claim_c5_counterexample :
    (fetchOdesli_retry (fun _ => FetchOutcome.fail)).2 = 2
      ∧ ¬ (fetchOdesli_retry (fun _ => FetchOutcome.fail)).2 = 1 := by
  decide

/-- C5 (amended): the part_000 `fetchOdesli` issues exactly one request per
call, whether it succeeds or fails; the slack.js/part_002 `fetchOdesli` issues
one request when the first attempt succeeds, and two (one internal retry) when
it fails. -/
theorem claim_c5_attempts :
    (∀ remote : Nat → FetchOutcome, (fetchOdesli_v1 remote).2 = 1)
      ∧ (∀ (remote : Nat → FetchOutcome) (d : OdesliData),
          remote 0 = FetchOutcome.ok d → (fetchOdesli_retry remote).2 = 1)
      ∧ (∀ remote : Nat → FetchOutcome,
          remote 0 = FetchOutcome.fail → (fetchOdesli_retry remote).2 = 2) := by
  refine ⟨?_, ?_, ?_⟩
  · intro remote
    unfold fetchOdesli_v1
    cases remote 0 <;> rfl
  · intro remote d h
    unfold fetchOdesli_retry
    rw [h]
  · intro remote h
    unfold fetchOdesli_retry
    rw [h]
    cases remote 1 <;> rfl

/-- Witness for C5 (amended) at concrete request oracles. -/
theorem claim_c5_attempts_witness :
    (fetchOdesli_v1 (fun _ => FetchOutcome.fail)).2 = 1
      ∧ (fetchOdesli_retry (fun _ => FetchOutcome.ok dFull)).2 = 1
      ∧ (fetchOdesli_retry (fun _ => FetchOutcome.fail)).2 = 2 :=
  ⟨claim_c5_attempts.1 (fun _ => FetchOutcome.fail),
   claim_c5_attempts.2.1 (fun _ => FetchOutcome.ok dFull) dFull rfl,
   claim_c5_attempts.2.2 (fun _ => FetchOutcome.fail) rfl⟩

/-! ### Claim C7: bulk-eviction policy -/

/-- C7 counterexample: inserting a 2001st distinct key into a cache holding
2000 entries does NOT clear the cache — `setCached` has no eviction at all, so
the size grows to 2001 (beyond the claimed fixed threshold) and the old
entries are all retained. -/
theorem claim_c7_counterexample :
    (setCached bigCache2000 0 "b" { linksByPlatform := none }).length = 2001
      ∧ 2000 < (setCached bigCache2000 0 "b" { linksByPlatform := none }).length
      ∧ cacheHasKey (setCached bigCache2000 0 "b" { linksByPlatform := none }) "a" = true := by
  have hany : bigCache2000.any (fun p => p.1 == "b") = false := by
    rw [← Bool.not_eq_true]
    intro h
    obtain ⟨p, hmem, hp⟩ := List.any_eq_true.mp h
    obtain ⟨s, hs, rfl⟩ := List.mem_map.mp hmem
    exact b_not_mem_padIds 2000 (eq_of_beq hp ▸ hs)
  have hset : setCached bigCache2000 0 "b" { linksByPlatform := none }
      = bigCache2000 ++ [("b", { data := { linksByPlatform := none }, createdAt := 0 })] := by
    unfold setCached mapSet
    rw [if_neg (by simp [hany])]
  have hlen : bigCache2000.length = 2000 := by
    simp [bigCache2000, padIds_length]
  have hmem_a : ("a",
      ({ data := { linksByPlatform := none }, createdAt := 0 } : CacheEntry OdesliData))
        ∈ bigCache2000 := by
    apply List.mem_map.mpr
    refine ⟨"a", ?_, rfl⟩
    apply List.mem_map.mpr
    exact ⟨0, List.mem_range.mpr (by omega), rfl⟩
  refine ⟨?_, ?_, ?_⟩
  · rw [hset]; simp [hlen]
  · rw [hset]; simp [hlen]
  · rw [hset]
    unfold cacheHasKey
    simp only [List.any_append, Bool.or_eq_true]
    exact Or.inl (List.any_eq_true.mpr ⟨_, hmem_a, by simp⟩)

/-- C7 (amended): the wholesale clear at the 2000-entry threshold belongs to
the dedup `seenEvents` set, not to the equivalence cache: marking an event id
keeps the seen set at or below 2000 entries, while `setCached` never evicts —
every existing key survives an insert. -/
theorem claim_c7_eviction_policy :
    (∀ (seen : List String) (x : String),
        seen.length ≤ 2000 → (markSeenAdd seen x).length ≤ 2000)
      ∧ (∀ (α : Type) (c : Cache α) (now : Nat) (k : String) (v : α) (k' : String),
          cacheHasKey c k' = true → cacheHasKey (setCached c now k v) k' = true) := by
  constructor
  · intro seen x h
    simp only [markSeenAdd]
    split
    next => simp
    next hc => simp only [List.length_append, List.length_singleton] at hc ⊢; omega
  · intro α c now k v k' h
    unfold cacheHasKey at *
    unfold setCached mapSet
    split
    · rw [List.any_map]
      obtain ⟨p, hmem, hp⟩ := List.any_eq_true.mp h
      apply List.any_eq_true.mpr
      refine ⟨p, hmem, ?_⟩
      by_cases hpk : (p.1 == k) = true
      · have e1 : p.1 = k := eq_of_beq hpk
        have e2 : p.1 = k' := eq_of_beq hp
        simp [Function.comp, hpk, ← e1, e2]
      · simp only [Function.comp, hpk, Bool.false_eq_true, if_neg, if_false]
        simpa using hp
    · simp only [List.any_append, Bool.or_eq_true]
      exact Or.inl h

/-- Witness for C7 (amended) at concrete inputs: marking an id in a small set
keeps it under the threshold, and an insert keeps an unrelated existing key. -/
theorem claim_c7_eviction_policy_witness :
    (markSeenAdd ["e1"] "e2").length ≤ 2000
      ∧ cacheHasKey (setCached ([("u", { data := 3, createdAt := 0 })] : Cache Nat) 5 "v" 4) "u"
          = true :=
  ⟨claim_c7_eviction_policy.1 ["e1"] "e2" (by decide),
   claim_c7_eviction_policy.2 Nat [("u", { data := 3, createdAt := 0 })] 5 "v" 4 "u" (by decide)⟩

/-! ### Claim C9: absent event id skips dedup -/

/-- C9: when the inbound body carries no `event_id`, or a falsy one, the dedup
check and mark are skipped entirely — the seen set is unchanged, the event is
still fully processed with exactly one posted reply, and a redelivery of the
same event is processed again (a second reply). -/
theorem claim_c9_no_event_id :
    ∀ (rt : String → Option String) (chans : List String) (st : BotState) (ev : MsgEvent)
      (eventId : Option String) (f1 f2 : Option OdesliData) (now1 now2 : Nat) (u : String),
      isIgnorableEvent ev = false → channelAllowed chans ev.channel = true →
      pickUrlFromEvent ev = some u → strTruthy eventId = false →
      (handleMessage rt chans st ev eventId f1 now1).1.seen = st.seen
        ∧ (handleMessage rt chans st ev eventId f1 now1).2.length = 1
        ∧ (handleMessage rt chans (handleMessage rt chans st ev eventId f1 now1).1
            ev eventId f2 now2).2.length = 1 := by
  intro rt chans st ev eventId f1 f2 now1 now2 u hig hal hurl heid
  obtain ⟨h1, h2⟩ := handleMessage_posts_nonempty rt chans st ev eventId f1 now1 hig hal hurl heid
  exact ⟨h1, h2,
    (handleMessage_posts_nonempty rt chans _ ev eventId f2 now2 hig hal hurl heid).2⟩

/-- Witness for C9: a concrete event with a Spotify URL and an absent (and,
separately, an empty-string) event id is processed twice, posting one reply
each time, with the seen set untouched. -/
theorem claim_c9_no_event_id_witness :
    ((handleMessage urlRoundTripModel [] { seen := [], cache := [] } evSpot none
          (some dFull) 0).1.seen = ([] : List String)
      ∧ (handleMessage urlRoundTripModel [] { seen := [], cache := [] } evSpot none
          (some dFull) 0).2.length = 1
      ∧ (handleMessage urlRoundTripModel []
          (handleMessage urlRoundTripModel [] { seen := [], cache := [] } evSpot none
            (some dFull) 0).1 evSpot none (some dFull) 0).2.length = 1)
      ∧ ((handleMessage urlRoundTripModel [] { seen := [], cache := [] } evSpot (some "")
            (some dFull) 0).1.seen = ([] : List String)
        ∧ (handleMessage urlRoundTripModel [] { seen := [], cache := [] } evSpot (some "")
            (some dFull) 0).2.length = 1
        ∧ (handleMessage urlRoundTripModel []
            (handleMessage urlRoundTripModel [] { seen := [], cache := [] } evSpot (some "")
              (some dFull) 0).1 evSpot (some "") (some dFull) 0).2.length = 1) :=
  ⟨claim_c9_no_event_id urlRoundTripModel [] { seen := [], cache := [] } evSpot none
     (some dFull) (some dFull) 0 0 "https://open.spotify.com/track/abc"
     (by decide) (by decide) (by decide) (by decide),
   claim_c9_no_event_id urlRoundTripModel [] { seen := [], cache := [] } evSpot (some "")
     (some dFull) (some dFull) 0 0 "https://open.spotify.com/track/abc"
     (by decide) (by decide) (by decide) (by decide)⟩

/-! ### Claim C10: channel allow-list -/

/-- C10: when every comma-separated entry of the `ALLOWED_CHANNELS` value trims
to blank (in particular when the value is empty), the parsed allow-list is
empty and every channel passes the filter; when the parsed list is non-empty,
a channel passes exactly when it is literally one of the listed identifiers. -/
theorem claim_c10_channel_filter :
    (∀ env : String,
        (∀ f ∈ (splitOnChar ',' env.data).map (fun cs => String.mk (trimL cs)), f = "") →
          parseAllowedChannels env = []
            ∧ ∀ ch, channelAllowed (parseAllowedChannels env) ch = true)
      ∧ (∀ (env : String) (ch : String), parseAllowedChannels env ≠ [] →
          channelAllowed (parseAllowedChannels env) ch = (parseAllowedChannels env).contains ch)
      ∧ parseAllowedChannels "" = [] ∧ parseAllowedChannels " , " = [] := by
  refine ⟨?_, ?_, by decide, by decide⟩
  · intro env h
    have hnil : parseAllowedChannels env = [] := by
      unfold parseAllowedChannels
      exact filter_nonblank_eq_nil h
    exact ⟨hnil, fun ch => by simp [channelAllowed, hnil]⟩
  · intro env ch h
    unfold channelAllowed
    rw [List.isEmpty_eq_false_iff_exists_mem.mpr]
    · rfl
    · cases he : parseAllowedChannels env with
      | nil => exact absurd he h
      | cons a l => exact ⟨a, he ▸ List.mem_cons_self a l⟩

/-- Witness for C10: a blank-only value admits an arbitrary channel; a
non-empty value admits exactly its listed channels. -/
theorem claim_c10_channel_filter_witness :
    parseAllowedChannels " , " = []
      ∧ channelAllowed (parseAllowedChannels " , ") "C9999" = true
      ∧ channelAllowed (parseAllowedChannels "C1, C2") "C2"
          = (parseAllowedChannels "C1, C2").contains "C2"
      ∧ channelAllowed (parseAllowedChannels "C1, C2") "C3"
          = (parseAllowedChannels "C1, C2").contains "C3" := by
  have h := claim_c10_channel_filter.1 " , " (by decide)
  exact ⟨h.1, h.2 "C9999",
    claim_c10_channel_filter.2.1 "C1, C2" "C2" (by decide),
    claim_c10_channel_filter.2.1 "C1, C2" "C3" (by decide)⟩

/-! ### Claim C1: dedup only after URL extraction -/

/-- C1 counterexample: with the `seenEvents` set already holding 2000 ids,
marking one more id wholesale-clears the set (`size > 2000` triggers
`clear()`), so a second event with the same event id is processed again and a
second reply is posted — the claim's "never processes the second" fails at the
capacity threshold. -/
theorem claim_c1_counterexample :
    pickUrlFromEvent evSpot = some "https://open.spotify.com/track/abc"
      ∧ (handleMessage urlRoundTripModel [] { seen := padIds 2000, cache := [] } evSpot
          (some "b") (some dFull) 0).2.length = 1
      ∧ (handleMessage urlRoundTripModel []
          (handleMessage urlRoundTripModel [] { seen := padIds 2000, cache := [] } evSpot
            (some "b") (some dFull) 0).1 evSpot (some "b") (some dFull) 0).2.length = 1 := by
  have hpick : pickUrlFromEvent evSpot = some "https://open.spotify.com/track/abc" := by decide
  have hig : isIgnorableEvent evSpot = false := by decide
  have hal : channelAllowed [] evSpot.channel = true := by decide
  have hc : (padIds 2000).contains "b" = false := contains_padIds_b 2000
  have hmark : markSeenAdd (padIds 2000) "b" = [] := by
    simp only [markSeenAdd]
    rw [if_pos]
    simp [padIds_length]
  have h1 : handleMessage urlRoundTripModel [] { seen := padIds 2000, cache := [] } evSpot
      (some "b") (some dFull) 0
      = processCandidate urlRoundTripModel { seen := [], cache := [] }
          "https://open.spotify.com/track/abc" (some dFull) 0 := by
    rw [handleMessage_dedup _ _ _ _ _ _ _ hig hal hpick (by rfl)]
    rw [hc, if_neg (by simp), hmark]
  have hseen2 : (processCandidate urlRoundTripModel { seen := [], cache := [] }
      "https://open.spotify.com/track/abc" (some dFull) 0).1.seen = [] :=
    (processCandidate_parts _ _ _ _ _).1
  refine ⟨hpick, ?_, ?_⟩
  · rw [h1]
    exact (processCandidate_parts _ _ _ _ _).2
  · rw [h1, handleMessage_dedup _ _ _ _ _ _ _ hig hal hpick (by rfl)]
    rw [show ((processCandidate urlRoundTripModel { seen := [], cache := [] }
        "https://open.spotify.com/track/abc" (some dFull) 0).1.seen).contains "b" = false
      from by rw [hseen2]; rfl]
    rw [if_neg (by simp)]
    exact (processCandidate_parts _ _ _ _ _).2

/-- C1 (amended): the dedup check-and-mark happens only after a candidate URL
has been extracted — an event with no recognizable URL leaves the state (and
so the processed set) unchanged and is not replied to; and for two events with
the same event id where the first extracts a URL, the second is never
processed (state unchanged, no reply) provided the id is truthy and marking
the first did not push the processed set past its 2000-entry wholesale-clear
threshold. -/
theorem claim_c1_dedup :
    (∀ (rt : String → Option String) (chans : List String) (st : BotState) (ev : MsgEvent)
        (eid : Option String) (f : Option OdesliData) (now : Nat),
        pickUrlFromEvent ev = none → handleMessage rt chans st ev eid f now = (st, []))
      ∧ (∀ (rt : String → Option String) (chans : List String) (st : BotState)
          (ev1 ev2 : MsgEvent) (eid : String) (f1 f2 : Option OdesliData) (now1 now2 : Nat)
          (u : String),
          isIgnorableEvent ev1 = false → channelAllowed chans ev1.channel = true →
          pickUrlFromEvent ev1 = some u → (eid == "") = false → st.seen.length < 2000 →
          handleMessage rt chans (handleMessage rt chans st ev1 (some eid) f1 now1).1
              ev2 (some eid) f2 now2
            = ((handleMessage rt chans st ev1 (some eid) f1 now1).1, [])) := by
  constructor
  · intro rt chans st ev eid f now h
    exact handleMessage_noUrl rt chans st ev eid f now h
  · intro rt chans st ev1 ev2 eid f1 f2 now1 now2 u hig hal hurl heid hsz
    set st1 := (handleMessage rt chans st ev1 (some eid) f1 now1).1 with hst1
    have hmem : st1.seen.contains eid = true := by
      cases hc : st.seen.contains eid with
      | true =>
        have hc' : eid ∈ st.seen := by simpa using hc
        have h1 : handleMessage rt chans st ev1 (some eid) f1 now1 = (st, []) := by
          rw [handleMessage_dedup _ _ _ _ _ _ _ hig hal hurl heid]
          simp [hc']
        rw [hst1, h1]
        exact hc
      | false =>
        have hc' : ¬ (eid ∈ st.seen) := by simpa using hc
        have h1 : handleMessage rt chans st ev1 (some eid) f1 now1
            = processCandidate rt { st with seen := markSeenAdd st.seen eid } u f1 now1 := by
          rw [handleMessage_dedup _ _ _ _ _ _ _ hig hal hurl heid]
          simp [hc']
        have h2 := (processCandidate_parts rt { st with seen := markSeenAdd st.seen eid }
          u f1 now1).1
        have hmark : markSeenAdd st.seen eid = st.seen ++ [eid] := by
          simp only [markSeenAdd]
          rw [if_neg]
          simp only [List.length_append, List.length_singleton]
          omega
        rw [hst1, h1, h2]
        simp only [hmark]
        have : eid ∈ st.seen ++ [eid] :=
          List.mem_append_right _ (List.mem_singleton_self eid)
        exact List.elem_iff.mpr this
    cases hig2 : isIgnorableEvent ev2 with
    | true => simp [handleMessage, hig2]
    | false =>
      cases hal2 : channelAllowed chans ev2.channel with
      | false => simp [handleMessage, hig2, hal2]
      | true =>
        cases hurl2 : pickUrlFromEvent ev2 with
        | none => exact handleMessage_noUrl _ _ _ _ _ _ _ hurl2
        | some u2 =>
          rw [handleMessage_dedup _ _ _ _ _ _ _ hig2 hal2 hurl2 heid]
          have hmem' : eid ∈ st1.seen := by simpa using hmem
          simp [hmem']

/-- Witness for C1 (amended): a URL-less event changes nothing; a concrete
duplicate event id below the threshold is not processed a second time. -/
theorem claim_c1_dedup_witness :
    pickUrlFromEvent evPlain = none
      ∧ handleMessage urlRoundTripModel [] { seen := [], cache := [] } evPlain
          (some "E") (some dFull) 0 = ({ seen := [], cache := [] }, [])
      ∧ handleMessage urlRoundTripModel []
          (handleMessage urlRoundTripModel [] { seen := [], cache := [] } evSpot
            (some "E") (some dFull) 0).1 evSpot (some "E") (some dFull) 0
          = ((handleMessage urlRoundTripModel [] { seen := [], cache := [] } evSpot
              (some "E") (some dFull) 0).1, []) :=
  ⟨by decide,
   claim_c1_dedup.1 urlRoundTripModel [] { seen := [], cache := [] } evPlain
     (some "E") (some dFull) 0 (by decide),
   claim_c1_dedup.2 urlRoundTripModel [] { seen := [], cache := [] } evSpot evSpot "E"
     (some dFull) (some dFull) 0 0 "https://open.spotify.com/track/abc"
     (by decide) (by decide) (by decide) (by decide) (by decide)⟩

/-! ### Claim C2: empty mapping handling -/

theorem linksEmpty_parts {d : OdesliData} (h : linksEmpty d = true) :
    strTruthy (lbpField d LinksByPlatform.spotify) = false
      ∧ strTruthy (lbpField d LinksByPlatform.appleMusic) = false
      ∧ strTruthy (lbpField d LinksByPlatform.youtubeMusic) = false := by
  have h' : (strTruthy (lbpField d LinksByPlatform.spotify) = false
      ∧ strTruthy (lbpField d LinksByPlatform.appleMusic) = false)
      ∧ strTruthy (lbpField d LinksByPlatform.youtubeMusic) = false := by
    simpa [linksEmpty] using h
  exact ⟨h'.1.1, h'.1.2, h'.2⟩

theorem buildReply_of_empty {d : OdesliData} (h : linksEmpty d = true) :
    buildReply d = noEquivText := by
  obtain ⟨h1, h2, h3⟩ := linksEmpty_parts h
  simp [buildReply, h1, h2, h3]

theorem buildFallback_head (url title : String) :
    (buildFallback url title).data.head? = some ':' := by
  have hd : (buildFallback url title).data
      = fallbackHeaderText.data ++ (appleSearchMark.data
        ++ ((encodeURIComponent (if title == "" then url else title)).data
          ++ (("\n" : String).data ++ (ytSearchMark.data
            ++ ((encodeURIComponent (if title == "" then url else title)).data
              ++ ("\n" : String).data))))) := by
    simp [buildFallback, strData_append, List.append_assoc]
  rw [hd]
  exact head?_append_left (by decide)

theorem noEquiv_ne_buildFallback (url title : String) :
    noEquivText ≠ buildFallback url title := by
  intro h
  have hh := congrArg (fun s => s.data.head?) h
  simp only [buildFallback_head] at hh
  rw [show noEquivText.data.head? = some 'N' from by decide] at hh
  simp at hh

/-- C2 counterexample: in the part_000 listener a fetched mapping with zero
usable entries is treated as a SUCCESS — the reply posted is the
no-equivalences apology (not the fallback-search text and not the
timeout-fallback text), and the empty result is written to the cache. -/
theorem claim_c2_counterexample :
    (handleMessage urlRoundTripModel [] { seen := [], cache := [] } evSpot
        (some "E") (some dEmpty) 0).2 = [noEquivText]
      ∧ noEquivText ≠ timeoutText
      ∧ noEquivText ≠ buildFallback "https://open.spotify.com/track/abc" ""
      ∧ (getCached (handleMessage urlRoundTripModel [] { seen := [], cache := [] } evSpot
          (some "E") (some dEmpty) 0).1.cache 0
          (normalizeCandidate urlRoundTripModel "https://open.spotify.com/track/abc")).1
        = some dEmpty := by
  refine ⟨by decide, by decide, noEquiv_ne_buildFallback _ _, by decide⟩

/-- C2 (amended): a parsed mapping with zero usable entries is a fetch
SUCCESS, not a failure: the part_000 listener posts the no-equivalences
apology (which is neither the timeout-fallback text nor the v4.1
fallback-search text) and still caches the empty result; the v5-simple
listener posts nothing at all; only the v4.1 listener substitutes the
fallback-search text for an empty mapping. -/
theorem claim_c2_empty_mapping :
    (∀ d : OdesliData, linksEmpty d = true → buildReply d = noEquivText)
      ∧ (∀ d : OdesliData, linksEmpty d = true → buildReplyV5 d = none)
      ∧ (∀ (d : OdesliData) (url : String), linksEmpty d = true →
          v41FinalText (some d) url = buildFallback url "")
      ∧ noEquivText ≠ timeoutText
      ∧ (∀ url title, noEquivText ≠ buildFallback url title)
      ∧ (∀ (rt : String → Option String) (chans : List String) (st : BotState) (ev : MsgEvent)
          (now : Nat) (d : OdesliData) (u : String),
          isIgnorableEvent ev = false → channelAllowed chans ev.channel = true →
          pickUrlFromEvent ev = some u → linksEmpty d = true →
          cacheFindEntry st.cache (normalizeCandidate rt u) = none →
          handleMessage rt chans st ev none (some d) now
            = ({ st with cache := setCached st.cache now (normalizeCandidate rt u) d },
                [noEquivText])) := by
  refine ⟨fun d h => buildReply_of_empty h, ?_, ?_, by decide, noEquiv_ne_buildFallback, ?_⟩
  · intro d h
    obtain ⟨h1, h2, h3⟩ := linksEmpty_parts h
    simp [buildReplyV5, h1, h2, h3]
  · intro d url h
    obtain ⟨h1, h2, h3⟩ := linksEmpty_parts h
    simp [v41FinalText, h1, h2, h3]
  · intro rt chans st ev now d u hig hal hurl hempty hfind
    rw [handleMessage_run _ _ _ _ _ _ _ hig hal hurl]
    have hget : getCached st.cache now (normalizeCandidate rt u) = (none, st.cache) := by
      simp [getCached, hfind]
    simp [processCandidate, hget, buildReply_of_empty hempty]

/-- Witness for C2 (amended) at concrete inputs: the empty mapping `dEmpty`
through each of the three reply constructions and through the handler. -/
theorem claim_c2_empty_mapping_witness :
    buildReply dEmpty = noEquivText
      ∧ buildReplyV5 dEmpty = none
      ∧ v41FinalText (some dEmpty) "u" = buildFallback "u" ""
      ∧ handleMessage urlRoundTripModel [] { seen := [], cache := [] } evSpot
          none (some dEmpty) 0
        = ({ seen := [],
             cache := setCached [] 0
               (normalizeCandidate urlRoundTripModel "https://open.spotify.com/track/abc")
               dEmpty },
            [noEquivText]) :=
  ⟨claim_c2_empty_mapping.1 dEmpty (by decide),
   claim_c2_empty_mapping.2.1 dEmpty (by decide),
   claim_c2_empty_mapping.2.2.1 dEmpty "u" (by decide),
   claim_c2_empty_mapping.2.2.2.2.2 urlRoundTripModel [] { seen := [], cache := [] } evSpot 0
     dEmpty "https://open.spotify.com/track/abc" (by decide) (by decide) (by decide) (by decide)
     (by decide)⟩

/-! ### Claim C4: idempotence of normalization -/

theorem urlRoundTripModel_stable :
    ∀ s t : String, urlRoundTripModel s = some t → urlRoundTripModel t = some t := by
  intro s t h
  unfold urlRoundTripModel at h ⊢
  by_cases h1 : s.data.contains ':' = true
  · rw [if_pos h1] at h
    by_cases h2 : (startsWithL "http://".data s.data || startsWithL "https://".data s.data) = true
    · rw [if_pos h2] at h
      cases h
      rw [if_pos h1, if_pos h2]
    · rw [if_neg h2] at h
      exact absurd h (by simp)
  · rw [if_neg h1] at h
    exact absurd h (by simp)

/-- C4 counterexample: normalization is not idempotent.  On the input
`"x a&amp;amp;b"` the single left-to-right `&amp;`→`&` pass leaves a fresh
`&amp;` in the output (and the string, having no scheme, passes through the
URL parser unchanged), so a second normalization changes it again. -/
theorem claim_c4_counterexample :
    normalizeCandidate urlRoundTripModel
        (normalizeCandidate urlRoundTripModel "x a&amp;amp;b")
      ≠ normalizeCandidate urlRoundTripModel "x a&amp;amp;b"
      ∧ normalizeCandidate urlRoundTripModel "x a&amp;amp;b" = "x a&amp;b"
      ∧ normalizeCandidate urlRoundTripModel "x a&amp;b" = "x a&b" := by
  refine ⟨by decide, by decide, by decide⟩

/-- C4 (amended): normalization is idempotent on the inputs whose normalized
form is stable under the cleaning pass (no remaining `&amp;`, no no-break
space, no outer whitespace) — for any URL-parser round-trip that is itself
idempotent; the un-amended claim fails on inputs like `"...&amp;amp;..."`
whose single-pass ampersand decoding produces a fresh `&amp;`. -/
theorem claim_c4_normalize_idem :
    ∀ (rt : String → Option String) (u : String),
      cleanCandidate (normalizeCandidate rt u) = normalizeCandidate rt u →
      (∀ s t, rt s = some t → rt t = some t) →
      normalizeCandidate rt (normalizeCandidate rt u) = normalizeCandidate rt u := by
  intro rt u hstable hrt
  unfold normalizeCandidate at hstable ⊢
  cases h : rt (cleanCandidate u) with
  | none =>
    simp only [h] at hstable ⊢
    rw [hstable, h]
  | some t =>
    simp only [h] at hstable ⊢
    rw [hstable, hrt _ _ h]

/-- Witness for C4 (amended): a clean, already-canonical URL is a fixed point
of normalization. -/
theorem claim_c4_normalize_idem_witness :
    normalizeCandidate urlRoundTripModel
        (normalizeCandidate urlRoundTripModel "https://open.spotify.com/track/abc")
      = normalizeCandidate urlRoundTripModel "https://open.spotify.com/track/abc"
      ∧ cleanCandidate (normalizeCandidate urlRoundTripModel "https://open.spotify.com/track/abc")
          = normalizeCandidate urlRoundTripModel "https://open.spotify.com/track/abc" :=
  ⟨claim_c4_normalize_idem urlRoundTripModel "https://open.spotify.com/track/abc"
     (by decide) urlRoundTripModel_stable,
   by decide⟩

/-! ### Claim C6: fallback search links -/

/-- C6 counterexample: for an Apple Music candidate URL, `buildFallback`
emits a search link on the candidate's OWN service (Apple Music) — and no
Spotify link at all — refuting "only for the services other than the
candidate's own". -/
theorem claim_c6_counterexample :
    serviceOfUrl "https://music.apple.com/us/album/test/123" = some Service.appleMusic
      ∧ strContains (buildFallback "https://music.apple.com/us/album/test/123" "")
          appleSearchMark = true
      ∧ strContains (buildFallback "https://music.apple.com/us/album/test/123" "")
          "spotify" = false := by
  refine ⟨by decide, by decide, by decide⟩

/-- C6 (amended): `buildFallback` always emits exactly the Apple Music and
YouTube Music search links, whatever service the candidate URL belongs to
(so it never emits a Spotify search link).  For a Spotify candidate whose
remote lookup times out — the claim's scenario — the v4.1 final text is the
fallback and does contain the two other services' search links and no Spotify
search link; but for an Apple Music candidate the builder emits a search link
on the candidate's own service. -/
theorem claim_c6_fallback_links :
    (∀ url title, strContains (buildFallback url title) appleSearchMark = true)
      ∧ (∀ url title, strContains (buildFallback url title) ytSearchMark = true)
      ∧ v41FinalText none spotifyTrackUrl = buildFallback spotifyTrackUrl ""
      ∧ strContains (v41FinalText none spotifyTrackUrl) appleSearchMark = true
      ∧ strContains (v41FinalText none spotifyTrackUrl) ytSearchMark = true
      ∧ strContains (v41FinalText none spotifyTrackUrl) "spotify.com/search" = false
      ∧ serviceOfUrl spotifyTrackUrl = some Service.spotify := by
  refine ⟨?_, ?_, by decide, by decide, by decide, by decide, by decide⟩
  · intro url title
    apply strContains_of_split _ _ fallbackHeaderText.data
      ((encodeURIComponent (if title == "" then url else title)).data
        ++ (("\n" : String).data ++ (ytSearchMark.data
          ++ ((encodeURIComponent (if title == "" then url else title)).data
            ++ ("\n" : String).data))))
    simp [buildFallback, strData_append, List.append_assoc]
  · intro url title
    apply strContains_of_split _ _
      (fallbackHeaderText.data ++ appleSearchMark.data
        ++ (encodeURIComponent (if title == "" then url else title)).data
        ++ ("\n" : String).data)
      ((encodeURIComponent (if title == "" then url else title)).data
        ++ ("\n" : String).data)
    simp [buildFallback, strData_append, List.append_assoc]

/-! ### Claim C8: three-line reply -/

theorem splitOnChar_ne_nil (sep : Char) (cs : List Char) : splitOnChar sep cs ≠ [] := by
  induction cs with
  | nil => simp [splitOnChar]
  | cons c cs ih =>
    rcases h : splitOnChar sep cs with _ | ⟨l, ls⟩
    · exact absurd h ih
    · simp only [splitOnChar, h]
      split <;> simp

theorem splitOnChar_append (sep : Char) (xs ys : List Char) (l : List Char) (ls : List (List Char))
    (h : sep ∉ xs) (hy : splitOnChar sep ys = l :: ls) :
    splitOnChar sep (xs ++ ys) = (xs ++ l) :: ls := by
  induction xs with
  | nil => simpa using hy
  | cons x xs ih =>
    have hx : ¬ x = sep := fun e => h (e ▸ List.mem_cons_self x xs)
    have h' : sep ∉ xs := fun hm => h (List.mem_cons_of_mem x hm)
    simp only [List.cons_append, splitOnChar, List.append_eq]
    rw [ih h']
    simp [hx]

theorem splitOnChar_block (sep : Char) (xs ys : List Char) (h : sep ∉ xs) :
    splitOnChar sep (xs ++ sep :: ys) = xs :: splitOnChar sep ys := by
  rcases hy : splitOnChar sep ys with _ | ⟨l, ls⟩
  · exact absurd hy (splitOnChar_ne_nil sep ys)
  · have h1 : splitOnChar sep (sep :: ys) = [] :: l :: ls := by
      simp [splitOnChar, hy]
    rw [splitOnChar_append sep xs (sep :: ys) [] (l :: ls) h h1]
    simp [hy]

theorem splitOnChar_no_sep (sep : Char) (cs : List Char) (h : sep ∉ cs) :
    splitOnChar sep cs = [cs] := by
  have h0 : splitOnChar sep ([] : List Char) = [] :: [] := rfl
  have := splitOnChar_append sep cs [] [] [] h h0
  simpa using this

/-- C8 counterexample: the claim's cited v5-simple reply construction
(odesli-probe.js lines 150-157) posts, for a lookup result with all three
services present, a single `•`-joined line — one line, not three. -/
theorem claim_c8_counterexample :
    buildReplyV5 dFull = some "🎶 Spotify: S • Apple Music: A • YouTube Music: Y"
      ∧ splitOnChar '\n' "🎶 Spotify: S • Apple Music: A • YouTube Music: Y".data
          = ["🎶 Spotify: S • Apple Music: A • YouTube Music: Y".data]
      ∧ (splitOnChar '\n' "🎶 Spotify: S • Apple Music: A • YouTube Music: Y".data).length = 1
      ∧ ¬ (splitOnChar '\n'
            "🎶 Spotify: S • Apple Music: A • YouTube Music: Y".data).length = 3 := by
  refine ⟨by decide, by decide, by decide, by decide⟩

/-- C8 (amended): for the scenario input text the recognizer extracts the
Spotify track URL; whenever the remote lookup returns entries for all three
target services (each a non-empty URL without a line break), the part_000
reply splits on line breaks into exactly the header line, the three service
lines — one per service, each carrying its non-empty URL — and the empty
trailing segment of the final newline; the v5-simple listener instead posts
the three entries as one single `•`-joined line (no line break at all). -/
theorem claim_c8_reply_lines :
    pickUrlFromEvent
        { text := some "check this out https://open.spotify.com/track/4JjqJhEW00zcGiMIsunf0X",
          message := none, attachments := none, subtype := none, bot_id := none,
          channel := "C1", thread_ts := none, ts := "1700000000.000100" }
      = some spotifyTrackUrl
      ∧ (∀ u1 u2 u3 : String, u1 ≠ "" → u2 ≠ "" → u3 ≠ "" →
          '\n' ∉ u1.data → '\n' ∉ u2.data → '\n' ∉ u3.data →
          splitOnChar '\n' (buildReply (OdesliData.mk (some
              (LinksByPlatform.mk (some u1) (some u2) (some u3))))).data
            = ["🎶 Links equivalentes:".data, ("- Spotify: " ++ u1).data,
               ("- Apple Music: " ++ u2).data, ("- YouTube Music: " ++ u3).data, []])
      ∧ (∀ u1 u2 u3 : String, u1 ≠ "" → u2 ≠ "" → u3 ≠ "" →
          buildReplyV5 (OdesliData.mk (some
              (LinksByPlatform.mk (some u1) (some u2) (some u3))))
            = some (v5JoinedReply u1 u2 u3))
      ∧ (∀ u1 u2 u3 : String,
          '\n' ∉ u1.data → '\n' ∉ u2.data → '\n' ∉ u3.data →
          splitOnChar '\n' (v5JoinedReply u1 u2 u3).data = [(v5JoinedReply u1 u2 u3).data]) := by
  refine ⟨by decide, ?_, ?_, ?_⟩
  · intro u1 u2 u3 h1 h2 h3 hn1 hn2 hn3
    have t1 : strTruthy (some u1) = true := by simp [strTruthy, h1]
    have t2 : strTruthy (some u2) = true := by simp [strTruthy, h2]
    have t3 : strTruthy (some u3) = true := by simp [strTruthy, h3]
    simp only [buildReply, lbpField, t1, t2, t3, if_true, Option.getD_some]
    rw [if_neg ?hne]
    case hne =>
      intro he
      have hl := congrArg (fun s => s.data.length) he
      simp only [strData_append, List.length_append] at hl
      rw [show ("- Spotify: " : String).data.length = 11 from by decide] at hl
      omega
    have hshape : ((((replyHeader ++ "- Spotify: " ++ u1 ++ "\n") ++ "- Apple Music: " ++ u2
          ++ "\n") ++ "- YouTube Music: " ++ u3 ++ "\n")).data
        = "🎶 Links equivalentes:".data
          ++ '\n' :: (("- Spotify: " ++ u1).data
            ++ '\n' :: (("- Apple Music: " ++ u2).data
              ++ '\n' :: (("- YouTube Music: " ++ u3).data ++ '\n' :: []))) := by
      have e0 : replyHeader.data = "🎶 Links equivalentes:".data ++ ['\n'] := by decide
      simp only [strData_append, List.append_assoc, e0, List.cons_append, List.nil_append,
        List.singleton_append]
    rw [hshape]
    have hx1 : '\n' ∉ ("🎶 Links equivalentes:" : String).data := by decide
    have hx2 : '\n' ∉ ("- Spotify: " ++ u1).data := by
      rw [strData_append]
      simp only [List.mem_append]
      rintro (hl | hr)
      · revert hl; decide
      · exact hn1 hr
    have hx3 : '\n' ∉ ("- Apple Music: " ++ u2).data := by
      rw [strData_append]
      simp only [List.mem_append]
      rintro (hl | hr)
      · revert hl; decide
      · exact hn2 hr
    have hx4 : '\n' ∉ ("- YouTube Music: " ++ u3).data := by
      rw [strData_append]
      simp only [List.mem_append]
      rintro (hl | hr)
      · revert hl; decide
      · exact hn3 hr
    rw [splitOnChar_block '\n' _ _ hx1, splitOnChar_block '\n' _ _ hx2,
        splitOnChar_block '\n' _ _ hx3, splitOnChar_block '\n' _ _ hx4]
    rfl
  · intro u1 u2 u3 h1 h2 h3
    have t1 : strTruthy (some u1) = true := by simp [strTruthy, h1]
    have t2 : strTruthy (some u2) = true := by simp [strTruthy, h2]
    have t3 : strTruthy (some u3) = true := by simp [strTruthy, h3]
    simp [buildReplyV5, lbpField, t1, t2, t3, v5JoinedReply]
  · intro u1 u2 u3 hn1 hn2 hn3
    apply splitOnChar_no_sep
    intro hmem
    have hi : String.intercalate " • "
        ["Spotify: " ++ u1, "Apple Music: " ++ u2, "YouTube Music: " ++ u3]
        = "Spotify: " ++ u1 ++ " • " ++ ("Apple Music: " ++ u2) ++ " • "
          ++ ("YouTube Music: " ++ u3) := rfl
    simp only [v5JoinedReply, hi, strData_append, List.append_assoc, List.mem_append] at hmem
    rcases hmem with h | h | h | h | h | h | h | h | h
    · exact absurd h (by decide)
    · exact absurd h (by decide)
    · exact hn1 h
    · exact absurd h (by decide)
    · exact absurd h (by decide)
    · exact hn2 h
    · exact absurd h (by decide)
    · exact absurd h (by decide)
    · exact hn3 h

/-- Witness for C8 (amended) at a concrete all-three-services lookup result:
the part_000 reply's line split, and the v5-simple single joined line. -/
theorem claim_c8_reply_lines_witness :
    (splitOnChar '\n' (buildReply (OdesliData.mk (some
          (LinksByPlatform.mk (some "S1") (some "A1") (some "Y1"))))).data
        = ["🎶 Links equivalentes:".data, ("- Spotify: " ++ "S1").data,
           ("- Apple Music: " ++ "A1").data, ("- YouTube Music: " ++ "Y1").data, []])
      ∧ buildReplyV5 (OdesliData.mk (some
            (LinksByPlatform.mk (some "S1") (some "A1") (some "Y1"))))
          = some (v5JoinedReply "S1" "A1" "Y1")
      ∧ splitOnChar '\n' (v5JoinedReply "S1" "A1" "Y1").data
          = [(v5JoinedReply "S1" "A1" "Y1").data] :=
  ⟨claim_c8_reply_lines.2.1 "S1" "A1" "Y1" (by decide) (by decide) (by decide)
     (by decide) (by decide) (by decide),
   claim_c8_reply_lines.2.2.1 "S1" "A1" "Y1" (by decide) (by decide) (by decide),
   claim_c8_reply_lines.2.2.2 "S1" "A1" "Y1" (by decide) (by decide) (by decide)⟩

end MusicBot
